import Mathlib

/-!
Shallow embedding of `src/src/main.rs` (kPatch/learn-rollups), a toy
optimistic rollup: batch processing over an account ledger, state-root
commitments, and fraud-proof generation/verification by replay.

Modelling conventions:
* `Address` (`[u8; 20]`) is modelled as `Nat`: addresses are opaque keys,
  compared only for equality and lexicographic order, and the lexicographic
  order on fixed-length big-endian byte arrays coincides with the numeric
  order of their big-endian values, so this is equality- and order-faithful.
* `U256` (`[u8; 32]`) is modelled as `List Nat`, one entry per byte, because
  the program manipulates balances strictly byte by byte.
* `HashMap<Address, Account>` is modelled as an association list with
  replace-on-insert semantics (`mapInsert`), mirroring the operations the
  program uses: `entry(..).or_insert(..)`, `get_mut`, `insert`, iteration.
* `std::collections::hash_map::DefaultHasher` is external standard-library
  code, which the spec explicitly excludes as a swappable collaborator
  ("a placeholder hash stands in for a production-grade commitment"); it is
  modelled as a deterministic accumulator of the written words.  No theorem
  below relies on any property of the hash other than being a function of
  the written stream.
* Rust's stable `sort_by(|a, b| a.0.cmp(b.0))` is modelled with
  `List.insertionSort` on the key order; on the unique-key lists produced by
  a `HashMap` the sorted-by-key permutation is unique, so any correct sort
  is extensionally the same.
* `usize`/`u64` are modelled as `Nat`; the only arithmetic on a `u64` is the
  nonce increment `+ 1`, whose wraparound (after `2^64` increments of one
  account) is not modelled.
* A Rust panic (out-of-bounds indexing) is modelled by returning `none`.
-/

abbrev Address : Type := Nat

abbrev U256 : Type := List Nat

/-- Byte-level `u8::saturating_sub`: on `Nat`, truncated subtraction is
exactly saturating subtraction. -/
def byteSatSub (a b : Nat) : Nat := a - b

/-- Byte-level `u8::saturating_add`: clamps at 255. -/
def byteSatAdd (a b : Nat) : Nat := min (a + b) 255

/-- Transaction struct of `main.rs` lines 8-19, all fields kept. -/
structure Transaction where
  nonce : Nat
  gas_price : U256
  gas_limit : Nat
  «to» : Option Address
  value : U256
  data : List Nat
  v : Nat
  r : U256
  s : U256
deriving DecidableEq, Repr

/-- Account struct of `main.rs` lines 21-25. -/
structure Account where
  nonce : Nat
  balance : U256
deriving DecidableEq, Repr

/-- Default account materialised by `or_insert_with`: nonce 0, zero balance. -/
def defaultAccount : Account := { nonce := 0, balance := List.replicate 32 0 }

/-- Association-list model of `HashMap<Address, Account>`: lookup. -/
def mapLookup (m : List (Address × Account)) (k : Address) : Option Account :=
  match m with
  | [] => none
  | (k', v) :: rest => if k' = k then some v else mapLookup rest k

/-- Association-list model of `HashMap::insert`: replaces the value when the
key is present, appends otherwise, so keys stay unique. -/
def mapInsert (m : List (Address × Account)) (k : Address) (v : Account) :
    List (Address × Account) :=
  match m with
  | [] => [(k, v)]
  | (k', v') :: rest =>
    if k' = k then (k, v) :: rest else (k', v') :: mapInsert rest k v

/-- Model of `entry(k).or_insert_with(default)`'s map effect: inserts the
default account when the key is absent. -/
def mapEnsure (m : List (Address × Account)) (k : Address) :
    List (Address × Account) :=
  match mapLookup m k with
  | some _ => m
  | none => mapInsert m k defaultAccount

/-- Model of reading (`.clone()`) the entry returned by `entry(..).or_insert`. -/
def mapGetOr (m : List (Address × Account)) (k : Address) : Account :=
  (mapLookup m k).getD defaultAccount

/-- RollupState struct of `main.rs` lines 27-30. -/
structure RollupState where
  accounts : List (Address × Account)
deriving DecidableEq, Repr

/-- StateUpdate struct of `main.rs` lines 32-36.  State roots are the hash
model's output stream. -/
structure StateUpdate where
  transactions : List Transaction
  old_state_root : List Nat
  new_state_root : List Nat
deriving DecidableEq, Repr

/-- OptimisticRollup struct of `main.rs` lines 38-41. -/
structure OptimisticRollup where
  state : RollupState
  state_updates : List StateUpdate
deriving DecidableEq, Repr

/-- FraudProof struct of `main.rs` lines 211-218. -/
structure FraudProof where
  update_index : Nat
  fraudulent_tx_index : Nat
  pre_fraud_root : List Nat
  post_fraud_root : List Nat
  fraudulent_tx : Transaction
deriving DecidableEq, Repr

/-- `OptimisticRollup::new` (lines 44-49). -/
def OptimisticRollup.new : OptimisticRollup :=
  { state := { accounts := [] }, state_updates := [] }

/-- Model of `DefaultHasher`'s state: the stream of words written so far.
The hash primitive is outside the repository (spec: an excluded, swappable
collaborator); only determinism in the written stream is modelled. -/
abbrev HasherState : Type := List Nat

def hasherNew : HasherState := []

/-- Model of feeding words into the hasher (`Hash::hash` calls). -/
def hashWrite (h : HasherState) (ws : List Nat) : HasherState := h ++ ws

/-- Model of `Hasher::finish` followed by `to_be_bytes().to_vec()`: returns
the deterministic digest of the written stream. -/
def hashFinish (h : HasherState) : List Nat := h

/-- Key order used by `sorted_accounts.sort_by(|a, b| a.0.cmp(b.0))`. -/
def keyLe (p q : Address × Account) : Prop := p.1 ≤ q.1

instance : DecidableRel keyLe := fun p q => Nat.decLe p.1 q.1

instance : IsTotal (Address × Account) keyLe :=
  ⟨fun p q => Nat.le_total p.1 q.1⟩

instance : IsTrans (Address × Account) keyLe :=
  ⟨fun _ _ _ h1 h2 => Nat.le_trans h1 h2⟩

/-- `calculate_state_root_for` (lines 170-180): sort the accounts by address
and fold address, nonce and balance of each into the hasher. -/
def calculate_state_root_for (state : RollupState) : List Nat :=
  let sorted_accounts := List.insertionSort keyLe state.accounts
  hashFinish (sorted_accounts.foldl
    (fun h p => hashWrite (hashWrite (hashWrite h [p.1]) [p.2.nonce]) p.2.balance)
    hasherNew)

/-- `calculate_state_root` (lines 97-107), the method on `&self`; its body is
a verbatim duplicate of `calculate_state_root_for` applied to `self.state`. -/
def calculate_state_root (self : OptimisticRollup) : List Nat :=
  let sorted_accounts := List.insertionSort keyLe self.state.accounts
  hashFinish (sorted_accounts.foldl
    (fun h p => hashWrite (hashWrite (hashWrite h [p.1]) [p.2.nonce]) p.2.balance)
    hasherNew)

/-- `recover_signer` (lines 109-113): the stub ignores the transaction and
returns the dummy address `[0; 20]`, i.e. `0`. -/
def recover_signer (_tx : Transaction) : Address := 0

/-- `transfer` (lines 83-95), acting on `self.state.accounts`.  Reads
(clones) both entries after materialising them, updates the 32 balance bytes
independently with saturating ops, then writes `from` back and `to` back, in
that order. -/
def transfer (st : RollupState) (frm dst : Address) (value : U256) : RollupState :=
  let acc1 := mapEnsure st.accounts frm
  let from_account := mapGetOr acc1 frm
  let acc2 := mapEnsure acc1 dst
  let to_account := mapGetOr acc2 dst
  let from_account' :=
    { from_account with balance := List.zipWith byteSatSub from_account.balance value }
  let to_account' :=
    { to_account with balance := List.zipWith byteSatAdd to_account.balance value }
  { accounts := mapInsert (mapInsert acc2 frm from_account') dst to_account' }

/-- `transfer_in_state` (lines 156-168): a verbatim duplicate of `transfer`
operating on an explicit state. -/
def transfer_in_state (st : RollupState) (frm dst : Address) (value : U256) :
    RollupState :=
  let acc1 := mapEnsure st.accounts frm
  let from_account := mapGetOr acc1 frm
  let acc2 := mapEnsure acc1 dst
  let to_account := mapGetOr acc2 dst
  let from_account' :=
    { from_account with balance := List.zipWith byteSatSub from_account.balance value }
  let to_account' :=
    { to_account with balance := List.zipWith byteSatAdd to_account.balance value }
  { accounts := mapInsert (mapInsert acc2 frm from_account') dst to_account' }

/-- Model of the nonce update (`if let Some(account) = accounts.get_mut(k)
{ account.nonce += 1 }`): increments only when the account exists. -/
def bumpNonceIfPresent (st : RollupState) (k : Address) : RollupState :=
  match mapLookup st.accounts k with
  | some a => { accounts := mapInsert st.accounts k { a with nonce := a.nonce + 1 } }
  | none => st

/-- `apply_transaction` (lines 67-81): transfers when `tx.to` is present
(contract creation only prints), then bumps the recovered signer's nonce if
that account exists. -/
def apply_transaction (self : OptimisticRollup) (tx : Transaction) :
    OptimisticRollup :=
  let self1 :=
    match tx.«to» with
    | some dst => { self with state := transfer self.state (recover_signer tx) dst tx.value }
    | none => self
  { self1 with state := bumpNonceIfPresent self1.state (recover_signer tx) }

/-- `apply_transaction_to_state` (lines 145-154): the replay path's verbatim
duplicate, with the dummy sender `[0; 20]` hardcoded at both places. -/
def apply_transaction_to_state (state : RollupState) (tx : Transaction) :
    RollupState :=
  let state1 :=
    match tx.«to» with
    | some dst => transfer_in_state state 0 dst tx.value
    | none => state
  bumpNonceIfPresent state1 0

/-- `process_transaction_batch` (lines 51-65): root before, apply each
transaction in order, root after, append the StateUpdate. -/
def process_transaction_batch (self : OptimisticRollup)
    (transactions : List Transaction) : OptimisticRollup :=
  let old_state_root := calculate_state_root self
  let self1 := transactions.foldl apply_transaction self
  let new_state_root := calculate_state_root self1
  { self1 with
    state_updates := self1.state_updates ++
      [{ transactions := transactions, old_state_root := old_state_root,
         new_state_root := new_state_root }] }

/-- Replay loops shared verbatim by `generate_fraud_proof` (lines 120-128)
and `verify_fraud_proof` (lines 186-194): from an empty genesis state, apply
every transaction of every update before `update_index`, then the first
`tx_index` transactions of the targeted update. -/
def replayUpTo (self : OptimisticRollup) (update : StateUpdate)
    (update_index tx_index : Nat) : RollupState :=
  let pre1 := ((self.state_updates.take update_index).foldl
    (fun s u => u.transactions.foldl apply_transaction_to_state s)
    { accounts := [] })
  (update.transactions.take tx_index).foldl apply_transaction_to_state pre1

/-- `generate_fraud_proof` (lines 115-143): bounds-checked with `.get(..)?`,
replays to just before the disputed transaction, hashes the pre state,
applies the disputed transaction, hashes the post state. -/
def generate_fraud_proof (self : OptimisticRollup)
    (update_index fraudulent_tx_index : Nat) : Option FraudProof :=
  match self.state_updates[update_index]? with
  | none => none
  | some update =>
    match update.transactions[fraudulent_tx_index]? with
    | none => none
    | some fraudulent_tx =>
      let pre_fraud_state := replayUpTo self update update_index fraudulent_tx_index
      let pre_fraud_root := calculate_state_root_for pre_fraud_state
      let post_fraud_state := apply_transaction_to_state pre_fraud_state fraudulent_tx
      let post_fraud_root := calculate_state_root_for post_fraud_state
      some { update_index := update_index,
             fraudulent_tx_index := fraudulent_tx_index,
             pre_fraud_root := pre_fraud_root,
             post_fraud_root := post_fraud_root,
             fraudulent_tx := fraudulent_tx }

/-- `verify_fraud_proof` (lines 182-208).  The Rust code indexes
`self.state_updates[proof.update_index]` and `update.transactions[i]` for
`i < proof.fraudulent_tx_index` without bounds checks; an out-of-bounds
index panics, modelled here as `none`.  Otherwise it re-replays, rejects on
a pre-root mismatch, applies the proof's embedded transaction and compares
post roots. -/
def verify_fraud_proof (self : OptimisticRollup) (proof : FraudProof) :
    Option Bool :=
  match self.state_updates[proof.update_index]? with
  | none => none
  | some update =>
    if proof.fraudulent_tx_index ≤ update.transactions.length then
      let pre_fraud_state :=
        replayUpTo self update proof.update_index proof.fraudulent_tx_index
      let calculated_pre_fraud_root := calculate_state_root_for pre_fraud_state
      if calculated_pre_fraud_root = proof.pre_fraud_root then
        let post_state := apply_transaction_to_state pre_fraud_state proof.fraudulent_tx
        let calculated_post_fraud_root := calculate_state_root_for post_state
        some (decide (calculated_post_fraud_root = proof.post_fraud_root))
      else
        some false
    else
      none

/-! ## Derived accessors and concrete scenarios -/

/-- Balance of the account at an address, defaulting to the zero account the
data model prescribes for untouched addresses. -/
def balanceOf (st : RollupState) (a : Address) : U256 :=
  (mapGetOr st.accounts a).balance

/-- Nonce of the account at an address, defaulting to 0. -/
def nonceOf (st : RollupState) (a : Address) : Nat :=
  (mapGetOr st.accounts a).nonce

/-- Seeding of canonical state before the first batch (the demo driver does
this by a direct map insert). -/
def seedRollup (init : List (Address × Account)) : OptimisticRollup :=
  { state := { accounts := init }, state_updates := [] }

/-- Sequence of `process_transaction_batch` calls starting from a seeded
rollup. -/
def runBatches (init : List (Address × Account))
    (batches : List (List Transaction)) : OptimisticRollup :=
  batches.foldl process_transaction_batch (seedRollup init)

def zero32 : U256 := List.replicate 32 0

/-- Byte-31-only quantity, as the demo driver builds balances and values. -/
def bal (n : Nat) : U256 := List.replicate 31 0 ++ [n]

/-- First demo transaction of `main` (lines 235-249): transfer 100 wei to
address `[1; 20]`. -/
def demoTx1 : Transaction :=
  { nonce := 0, gas_price := zero32, gas_limit := 21000, «to» := some 1,
    value := bal 100, data := [], v := 0, r := zero32, s := zero32 }

/-- Second demo transaction of `main` (lines 251-265): transfer 150 wei to
address `[2; 20]`, insufficient funds. -/
def demoTx2 : Transaction :=
  { demoTx1 with nonce := 1, «to» := some 2, value := bal 150 }

/-- Rollup after the demo driver's seeding and two batches. -/
def demoRollup : OptimisticRollup :=
  process_transaction_batch
    (process_transaction_batch
      (seedRollup [(0, { nonce := 0, balance := bal 200 })]) [demoTx1]) [demoTx2]

/-- Self-transfer that saturates byte 31 of the dummy sender's balance. -/
def cexTx0 : Transaction :=
  { nonce := 0, gas_price := zero32, gas_limit := 21000, «to» := some 0,
    value := bal 255, data := [], v := 0, r := zero32, s := zero32 }

/-- Self-transfer whose byte-31 credit is fully masked by saturation. -/
def cexTx1 : Transaction :=
  { cexTx0 with nonce := 1, value := bal 200 }

/-- Rollup holding one batch with the two saturating self-transfers. -/
def cexRollup : OptimisticRollup :=
  process_transaction_batch OptimisticRollup.new [cexTx0, cexTx1]

/-- Placeholder FraudProof used as the default of `Option.getD`. -/
def dummyProof : FraudProof :=
  { update_index := 0, fraudulent_tx_index := 0, pre_fraud_root := [],
    post_fraud_root := [], fraudulent_tx := cexTx0 }

/-- The proof `generate_fraud_proof(0, 1)` produces on `cexRollup`. -/
def cexProof : FraudProof := (generate_fraud_proof cexRollup 0 1).getD dummyProof

/-- Tampered value for the disputed transaction: 201 instead of 200 wei,
masked by byte-31 saturation at 255. -/
def tamperedValue : U256 := bal 201

/-- Contract-creation transaction (`to = None`). -/
def ccTx : Transaction :=
  { nonce := 0, gas_price := zero32, gas_limit := 21000, «to» := none,
    value := zero32, data := [], v := 0, r := zero32, s := zero32 }

/-- One-account state with balance 100 wei at the dummy sender address. -/
def st100 : RollupState := { accounts := [(0, { nonce := 0, balance := bal 100 })] }

/-- StateUpdate produced by an empty batch on an empty rollup. -/
def emptyU : StateUpdate :=
  { transactions := [], old_state_root := [], new_state_root := [] }

/-! ## Association-list map lemmas -/

theorem mapLookup_mapInsert_self (m : List (Address × Account)) (k : Address)
    (v : Account) : mapLookup (mapInsert m k v) k = some v := by
  induction m with
  | nil => simp [mapInsert, mapLookup]
  | cons hd tl ih =>
    obtain ⟨k', v'⟩ := hd
    by_cases hk : k' = k
    · simp [mapInsert, hk, mapLookup]
    · simp [mapInsert, hk, mapLookup, ih]

theorem mapLookup_mapInsert_ne (m : List (Address × Account)) (k k' : Address)
    (v : Account) (h : k' ≠ k) :
    mapLookup (mapInsert m k v) k' = mapLookup m k' := by
  have hkk : ¬(k = k') := fun hc => h hc.symm
  induction m with
  | nil => simp [mapInsert, mapLookup, hkk]
  | cons hd tl ih =>
    obtain ⟨k0, v0⟩ := hd
    by_cases hk : k0 = k
    · subst hk
      simp [mapInsert, mapLookup, hkk]
    · simp [mapInsert, hk, mapLookup, ih]

theorem mapLookup_mapEnsure_self (m : List (Address × Account)) (k : Address) :
    mapLookup (mapEnsure m k) k = some (mapGetOr m k) := by
  unfold mapEnsure mapGetOr
  cases h : mapLookup m k with
  | some a => simp [h]
  | none => simp [h, mapLookup_mapInsert_self]

theorem mapGetOr_mapEnsure_self (m : List (Address × Account)) (k : Address) :
    mapGetOr (mapEnsure m k) k = mapGetOr m k := by
  unfold mapGetOr
  rw [show mapLookup (mapEnsure m k) k = some (mapGetOr m k) from
    mapLookup_mapEnsure_self m k]
  rfl

theorem mapLookup_mapEnsure_ne (m : List (Address × Account)) (k k' : Address)
    (h : k' ≠ k) : mapLookup (mapEnsure m k) k' = mapLookup m k' := by
  unfold mapEnsure
  cases hm : mapLookup m k with
  | some a => rfl
  | none => exact mapLookup_mapInsert_ne m k k' defaultAccount h

theorem mapGetOr_mapEnsure_ne (m : List (Address × Account)) (k k' : Address)
    (h : k' ≠ k) : mapGetOr (mapEnsure m k) k' = mapGetOr m k' := by
  unfold mapGetOr
  rw [mapLookup_mapEnsure_ne m k k' h]

/-! ## Structural helper lemmas -/

/-- The replay-path transfer is a verbatim duplicate of the live one. -/
theorem transfer_in_state_eq_transfer : transfer_in_state = transfer := rfl

/-- The state-root method is the same computation as the free function on
`self.state`. -/
theorem calculate_state_root_eq (self : OptimisticRollup) :
    calculate_state_root self = calculate_state_root_for self.state := rfl

/-- Applying a transaction on the live path changes the state exactly as the
replay path does: `recover_signer` always returns the dummy address the
replay hardcodes, and the two transfer bodies are identical. -/
theorem apply_transaction_state_eq (self : OptimisticRollup) (tx : Transaction) :
    (apply_transaction self tx).state = apply_transaction_to_state self.state tx := by
  cases htx : tx.«to» <;>
    simp [apply_transaction, apply_transaction_to_state, htx, recover_signer,
      transfer_in_state_eq_transfer]

/-- The live path never touches the update log while applying a transaction. -/
theorem apply_transaction_updates_eq (self : OptimisticRollup) (tx : Transaction) :
    (apply_transaction self tx).state_updates = self.state_updates := by
  cases htx : tx.«to» <;> simp [apply_transaction, htx]

/-- Folding a batch through `apply_transaction` leaves the update log as is. -/
theorem foldl_apply_transaction_updates (txs : List Transaction)
    (self : OptimisticRollup) :
    (txs.foldl apply_transaction self).state_updates = self.state_updates := by
  induction txs generalizing self with
  | nil => rfl
  | cons t ts ih => rw [List.foldl_cons, ih, apply_transaction_updates_eq]

/-! ## Transfer lookup lemmas -/

theorem transfer_frm_lookup (st : RollupState) (frm dst : Address) (v : U256)
    (h : frm ≠ dst) :
    mapLookup (transfer st frm dst v).accounts frm =
      some { nonce := (mapGetOr st.accounts frm).nonce,
             balance := List.zipWith byteSatSub (mapGetOr st.accounts frm).balance v } := by
  have hne : frm ≠ dst := h
  simp only [transfer]
  rw [mapLookup_mapInsert_ne _ dst frm _ hne, mapLookup_mapInsert_self,
    mapGetOr_mapEnsure_self]

theorem transfer_dst_lookup (st : RollupState) (frm dst : Address) (v : U256)
    (h : dst ≠ frm) :
    mapLookup (transfer st frm dst v).accounts dst =
      some { nonce := (mapGetOr st.accounts dst).nonce,
             balance := List.zipWith byteSatAdd (mapGetOr st.accounts dst).balance v } := by
  simp only [transfer]
  rw [mapLookup_mapInsert_self, mapGetOr_mapEnsure_self,
    mapGetOr_mapEnsure_ne _ frm dst h]

theorem transfer_self_lookup (st : RollupState) (a : Address) (v : U256) :
    mapLookup (transfer st a a v).accounts a =
      some { nonce := (mapGetOr st.accounts a).nonce,
             balance := List.zipWith byteSatAdd (mapGetOr st.accounts a).balance v } := by
  simp only [transfer]
  rw [mapLookup_mapInsert_self, mapGetOr_mapEnsure_self, mapGetOr_mapEnsure_self]

/-! ## Nonce lemmas -/

theorem nonceOf_of_lookup (st : RollupState) (k : Address) (a : Account)
    (h : mapLookup st.accounts k = some a) : nonceOf st k = a.nonce := by
  simp [nonceOf, mapGetOr, h]

theorem nonceOf_bumpNonceIfPresent (st : RollupState) (k : Address) (a : Account)
    (h : mapLookup st.accounts k = some a) :
    nonceOf (bumpNonceIfPresent st k) k = a.nonce + 1 := by
  simp [bumpNonceIfPresent, h, nonceOf, mapGetOr, mapLookup_mapInsert_self]

/-- Replay-path nonce behaviour: the dummy sender's nonce rises by exactly 1
whenever the transaction is a transfer (the transfer materialises the sender
account) or the sender account already exists. -/
theorem nonceOf_apply_transaction_to_state (st : RollupState) (tx : Transaction)
    (h : (tx.«to»).isSome = true ∨ (mapLookup st.accounts 0).isSome = true) :
    nonceOf (apply_transaction_to_state st tx) 0 = nonceOf st 0 + 1 := by
  cases htx : tx.«to» with
  | none =>
    rcases h with h | h
    · rw [htx] at h
      exact absurd h (by simp)
    · obtain ⟨a, ha⟩ := Option.isSome_iff_exists.mp h
      rw [show apply_transaction_to_state st tx = bumpNonceIfPresent st 0 by
        simp [apply_transaction_to_state, htx]]
      rw [nonceOf_bumpNonceIfPresent st 0 a ha, nonceOf_of_lookup st 0 a ha]
  | some dst =>
    rw [show apply_transaction_to_state st tx =
        bumpNonceIfPresent (transfer st 0 dst tx.value) 0 by
      simp [apply_transaction_to_state, htx, transfer_in_state_eq_transfer]]
    by_cases hd : dst = 0
    · subst hd
      rw [nonceOf_bumpNonceIfPresent _ 0 _ (transfer_self_lookup st 0 tx.value)]
      simp [nonceOf, mapGetOr]
    · rw [nonceOf_bumpNonceIfPresent _ 0 _
        (transfer_frm_lookup st 0 dst tx.value (fun hc => hd hc.symm))]
      simp [nonceOf, mapGetOr]

/-- Pointwise bound for the saturating byte add: a valid byte never
decreases. -/
theorem forall2_le_zipWith_byteSatAdd (l v : List Nat) (hlen : l.length = v.length)
    (hb : ∀ x ∈ l, x ≤ 255) :
    List.Forall₂ (fun x y => x ≤ y) l (List.zipWith byteSatAdd l v) := by
  induction l generalizing v with
  | nil => simp
  | cons x xs ih =>
    cases v with
    | nil => simp at hlen
    | cons y ys =>
      refine List.Forall₂.cons ?_
        (ih ys (by simpa using hlen) (fun z hz => hb z (List.mem_cons_of_mem _ hz)))
      exact le_min (Nat.le_add_right _ _) (hb x (List.mem_cons_self _ _))

/-! ## Claim C8 -/

/-- C8: the live batch path and the fraud-proof replay path induce the same
state transition for every state and transaction (the stub signer recovery
returns the dummy address the replay hardcodes, and the transfer bodies are
identical), and the live path leaves the update log untouched, so the two
paths can never diverge. -/
theorem live_and_replay_paths_agree (self : OptimisticRollup) (tx : Transaction) :
    (apply_transaction self tx).state = apply_transaction_to_state self.state tx ∧
    (apply_transaction self tx).state_updates = self.state_updates :=
  ⟨apply_transaction_state_eq self tx, apply_transaction_updates_eq self tx⟩

/-! ## Claim C3 -/

/-- C3 (counterexample): a contract-creation transaction (`to = None`)
applied to a state in which the recovered sender's account does not exist
leaves the sender's nonce at 0 — it does not increase by 1, because the code
increments only when `get_mut` finds an existing account. -/
theorem contract_creation_skips_nonce_increment :
    nonceOf (apply_transaction OptimisticRollup.new ccTx).state (recover_signer ccTx) ≠
      nonceOf OptimisticRollup.new.state (recover_signer ccTx) + 1 := by decide

/-- C3 (amended): the recovered sender's nonce increases by exactly 1 per
transaction processed — on the live path and on the replay path — whenever
the transaction performs a transfer (the transfer materialises the sender
account) or the sender account already exists; economic validity of the
transfer is irrelevant.  For a contract-creation transaction on a state
without the sender account, the increment is skipped. -/
theorem sender_nonce_increments_when_account_present
    (self : OptimisticRollup) (st : RollupState) (tx : Transaction)
    (hlive : (tx.«to»).isSome = true ∨
      (mapLookup self.state.accounts (recover_signer tx)).isSome = true)
    (hreplay : (tx.«to»).isSome = true ∨ (mapLookup st.accounts 0).isSome = true) :
    nonceOf (apply_transaction self tx).state (recover_signer tx) =
      nonceOf self.state (recover_signer tx) + 1 ∧
    nonceOf (apply_transaction_to_state st tx) 0 = nonceOf st 0 + 1 := by
  constructor
  · rw [apply_transaction_state_eq]
    exact nonceOf_apply_transaction_to_state self.state tx hlive
  · exact nonceOf_apply_transaction_to_state st tx hreplay

/-- Witness for C3's amended theorem: the first demo transfer bumps the
sender nonce from 0 to 1 on both paths. -/
theorem sender_nonce_increments_when_account_present_witness :
    nonceOf (apply_transaction OptimisticRollup.new demoTx1).state (recover_signer demoTx1) =
      nonceOf OptimisticRollup.new.state (recover_signer demoTx1) + 1 ∧
    nonceOf (apply_transaction_to_state OptimisticRollup.new.state demoTx1) 0 =
      nonceOf OptimisticRollup.new.state 0 + 1 :=
  sender_nonce_increments_when_account_present OptimisticRollup.new
    OptimisticRollup.new.state demoTx1 (Or.inl (by decide)) (Or.inl (by decide))

/-! ## Claim C5 -/

/-- C5 (counterexample): for `from = to` the claimed byte-wise rule for the
from-account fails — a self-transfer of 30 wei from a balance of 100 yields
130, not 70, because the final credit write overwrites the debit. -/
theorem self_transfer_breaks_bytewise_claim :
    balanceOf (transfer st100 0 0 (bal 30)) 0 ≠
      List.zipWith byteSatSub (balanceOf st100 0) (bal 30) := by decide

/-- C5 (amended): for distinct from/to addresses the transfer updates each
balance byte independently — from-bytes by `saturating_sub`, to-bytes by
`saturating_add`, no borrow or carry between bytes — and never errors; the
replay-path `transfer_in_state` is the identical function. -/
theorem transfer_updates_bytes_independently (st : RollupState)
    (frm dst : Address) (v : U256) (hne : frm ≠ dst) (hv : v.length = 32) :
    balanceOf (transfer st frm dst v) frm =
      List.zipWith byteSatSub (balanceOf st frm) v ∧
    balanceOf (transfer st frm dst v) dst =
      List.zipWith byteSatAdd (balanceOf st dst) v ∧
    transfer_in_state st frm dst v = transfer st frm dst v := by
  refine ⟨?_, ?_, rfl⟩
  · simp [balanceOf, mapGetOr, transfer_frm_lookup st frm dst v hne]
  · simp [balanceOf, mapGetOr, transfer_dst_lookup st frm dst v (fun hc => hne hc.symm)]

/-- Witness for C5's amended theorem on a concrete distinct-address transfer. -/
theorem transfer_updates_bytes_independently_witness :
    balanceOf (transfer st100 0 1 (bal 30)) 0 =
      List.zipWith byteSatSub (balanceOf st100 0) (bal 30) ∧
    balanceOf (transfer st100 0 1 (bal 30)) 1 =
      List.zipWith byteSatAdd (balanceOf st100 1) (bal 30) ∧
    transfer_in_state st100 0 1 (bal 30) = transfer st100 0 1 (bal 30) :=
  transfer_updates_bytes_independently st100 0 1 (bal 30) (by decide) (by decide)

/-! ## Claim C10 -/

/-- C10: on a self-transfer (from = to, e.g. any transaction whose recipient
is the stub-recovered dummy sender) the final write of the to-account
overwrites the from-account's debit under the same key: the resulting
balance is the original balance byte-wise saturating-added with the value,
so (for valid byte values) the balance never decreases. -/
theorem self_transfer_overwrites_debit (st : RollupState) (a : Address) (v : U256)
    (hlen : (balanceOf st a).length = v.length)
    (hbytes : ∀ x ∈ balanceOf st a, x ≤ 255) :
    balanceOf (transfer st a a v) a =
      List.zipWith byteSatAdd (balanceOf st a) v ∧
    List.Forall₂ (fun x y => x ≤ y) (balanceOf st a)
      (balanceOf (transfer st a a v) a) := by
  have hb : balanceOf (transfer st a a v) a =
      List.zipWith byteSatAdd (balanceOf st a) v := by
    simp [balanceOf, mapGetOr, transfer_self_lookup st a v]
  exact ⟨hb, hb ▸ forall2_le_zipWith_byteSatAdd _ v hlen hbytes⟩

/-- Witness for C10 on the concrete 100-wei account. -/
theorem self_transfer_overwrites_debit_witness :
    balanceOf (transfer st100 0 0 (bal 30)) 0 =
      List.zipWith byteSatAdd (balanceOf st100 0) (bal 30) ∧
    List.Forall₂ (fun x y => x ≤ y) (balanceOf st100 0)
      (balanceOf (transfer st100 0 0 (bal 30)) 0) :=
  self_transfer_overwrites_debit st100 0 (bal 30) (by decide) (by decide)

/-! ## Claim C9 -/

/-- C9: `generate_fraud_proof` bounds-checks both indices with `.get(..)?`:
an update index at or beyond the log length, or a transaction index at or
beyond the targeted update's transaction count, yields the explicit
not-found result `None`; no indexing fault is reachable. -/
theorem generate_fraud_proof_out_of_bounds (self : OptimisticRollup)
    (ui ti : Nat) (u : StateUpdate) :
    (self.state_updates.length ≤ ui → generate_fraud_proof self ui ti = none) ∧
    (self.state_updates[ui]? = some u → u.transactions.length ≤ ti →
      generate_fraud_proof self ui ti = none) := by
  constructor
  · intro h
    simp [generate_fraud_proof, List.getElem?_eq_none h]
  · intro hu ht
    simp [generate_fraud_proof, hu, List.getElem?_eq_none ht]

/-- Witness for C9: out-of-bounds requests on concrete rollups. -/
theorem generate_fraud_proof_out_of_bounds_witness :
    generate_fraud_proof OptimisticRollup.new 0 0 = none ∧
    generate_fraud_proof cexRollup 0 5 = none :=
  ⟨(generate_fraud_proof_out_of_bounds OptimisticRollup.new 0 0 emptyU).1
      (by decide),
   (generate_fraud_proof_out_of_bounds cexRollup 0 5
      (cexRollup.state_updates.getD 0 emptyU)).2 (by decide) (by decide)⟩

/-! ## Claim C2 -/

/-- C2: contrary to the spec's error taxonomy, `verify_fraud_proof` indexes
`state_updates[proof.update_index]` and `update.transactions[i]` without
bounds checks, so an out-of-bounds proof makes it panic (modelled `none`)
instead of surfacing an explicit result: here on the empty log with
`update_index = 0`, and on a one-update log whose batch has 2 transactions
with `fraudulent_tx_index = 3`. -/
theorem verify_fraud_proof_out_of_bounds_panics :
    verify_fraud_proof OptimisticRollup.new dummyProof = none ∧
    verify_fraud_proof cexRollup { cexProof with fraudulent_tx_index := 3 } = none :=
  ⟨by decide, by decide⟩

/-! ## Claim C4 -/

/-- Adjacent-commitment chaining over an update log. -/
def rootChained (l : List StateUpdate) : Prop :=
  List.Chain' (fun u v => u.new_state_root = v.old_state_root) l

/-- Invariant carried through batch processing: the log is chained and its
last entry's post-commitment is the commitment of the current state. -/
def LogInv (self : OptimisticRollup) : Prop :=
  rootChained self.state_updates ∧
  ∀ u, self.state_updates.getLast? = some u →
    u.new_state_root = calculate_state_root_for self.state

theorem process_state_updates (self : OptimisticRollup) (txs : List Transaction) :
    (process_transaction_batch self txs).state_updates =
      self.state_updates ++
        [{ transactions := txs,
           old_state_root := calculate_state_root self,
           new_state_root := calculate_state_root (txs.foldl apply_transaction self) }] := by
  simp [process_transaction_batch, foldl_apply_transaction_updates]

theorem process_state (self : OptimisticRollup) (txs : List Transaction) :
    (process_transaction_batch self txs).state =
      (txs.foldl apply_transaction self).state := rfl

theorem logInv_seed (init : List (Address × Account)) : LogInv (seedRollup init) := by
  constructor
  · simp [seedRollup, rootChained]
  · intro u hu
    simp [seedRollup] at hu

theorem logInv_process (self : OptimisticRollup) (txs : List Transaction)
    (h : LogInv self) : LogInv (process_transaction_batch self txs) := by
  obtain ⟨hc, hl⟩ := h
  constructor
  · rw [rootChained, process_state_updates, List.chain'_append]
    refine ⟨hc, List.chain'_singleton _, ?_⟩
    intro x hx y hy
    simp only [List.head?_cons, Option.mem_def, Option.some_inj] at hy
    subst hy
    exact hl x (Option.mem_def.mp hx)
  · intro u hu
    rw [process_state_updates, List.getLast?_concat] at hu
    rw [process_state]
    cases hu
    rfl

theorem logInv_runBatches (init : List (Address × Account))
    (batches : List (List Transaction)) : LogInv (runBatches init batches) := by
  suffices h : ∀ (bs : List (List Transaction)) (r : OptimisticRollup),
      LogInv r → LogInv (bs.foldl process_transaction_batch r) by
    exact h batches (seedRollup init) (logInv_seed init)
  intro bs
  induction bs with
  | nil => intro r h; exact h
  | cons b bs ih =>
    intro r h
    exact ih _ (logInv_process r b h)

theorem chain'_getElem_of_some {R : StateUpdate → StateUpdate → Prop}
    (l : List StateUpdate) (h : List.Chain' R l) (i : Nat) (u v : StateUpdate)
    (hu : l[i]? = some u) (hv : l[i + 1]? = some v) : R u v := by
  obtain ⟨hvlt, hvget⟩ := List.getElem?_eq_some.mp hv
  obtain ⟨hult, huget⟩ := List.getElem?_eq_some.mp hu
  have hi : i < l.length - 1 := by omega
  have := List.chain'_iff_get.mp h i hi
  rw [List.get_eq_getElem, List.get_eq_getElem] at this
  rw [huget, hvget] at this
  exact this

/-- C4: after any sequence of `process_transaction_batch` calls from a
seeded fresh rollup, adjacent update-log entries chain: each entry's
`new_state_root` equals the next entry's `old_state_root`, because a batch
records the commitment of exactly the state the previous batch left behind. -/
theorem update_log_chain_invariant (init : List (Address × Account))
    (batches : List (List Transaction)) (i : Nat) (u v : StateUpdate)
    (hu : (runBatches init batches).state_updates[i]? = some u)
    (hv : (runBatches init batches).state_updates[i + 1]? = some v) :
    u.new_state_root = v.old_state_root :=
  chain'_getElem_of_some _ (logInv_runBatches init batches).1 i u v hu hv

/-- Witness for C4 on two consecutive empty batches. -/
theorem update_log_chain_invariant_witness :
    (runBatches [] [[], []]).state_updates[0]? = some emptyU ∧
    (runBatches [] [[], []]).state_updates[1]? = some emptyU ∧
    emptyU.new_state_root = emptyU.old_state_root :=
  ⟨by decide, by decide,
   update_log_chain_invariant [] [[], []] 0 emptyU emptyU (by decide) (by decide)⟩

/-! ## Claim C6 -/

/-- Strict key order used to show the sorted account list is unique. -/
def keyLt (p q : Address × Account) : Prop := p.1 < q.1

instance : IsAntisymm (Address × Account) keyLt :=
  ⟨fun _ _ h1 h2 => absurd (Nat.lt_trans h1 h2) (Nat.lt_irrefl _)⟩

theorem pairwise_and_of {R S : (Address × Account) → (Address × Account) → Prop} :
    ∀ l : List (Address × Account), l.Pairwise R → l.Pairwise S →
      l.Pairwise fun a b => R a b ∧ S a b
  | [], _, _ => List.Pairwise.nil
  | _ :: as, List.Pairwise.cons h1 h2, List.Pairwise.cons g1 g2 =>
    List.Pairwise.cons (fun b hb => ⟨h1 b hb, g1 b hb⟩) (pairwise_and_of as h2 g2)

theorem sorted_keyLt_insertionSort (l : List (Address × Account))
    (hk : l.Pairwise fun p q => p.1 ≠ q.1) :
    (List.insertionSort keyLe l).Sorted keyLt := by
  have hs : (List.insertionSort keyLe l).Sorted keyLe :=
    List.sorted_insertionSort keyLe l
  have hp : (List.insertionSort keyLe l).Pairwise fun p q => p.1 ≠ q.1 :=
    (((List.perm_insertionSort keyLe l)).pairwise_iff
      (fun h hc => h hc.symm)).mpr hk
  exact (pairwise_and_of _ hs hp).imp fun h => Nat.lt_of_le_of_ne h.1 h.2

/-- Sorting by key is insensitive to the input order when keys are unique,
because the sorted-by-key permutation of a unique-key list is unique. -/
theorem insertionSort_eq_of_perm (l1 l2 : List (Address × Account))
    (hperm : l1.Perm l2) (hk : l1.Pairwise fun p q => p.1 ≠ q.1) :
    List.insertionSort keyLe l1 = List.insertionSort keyLe l2 := by
  have hk2 : l2.Pairwise fun p q => p.1 ≠ q.1 :=
    (hperm.pairwise_iff (fun h hc => h hc.symm)).mp hk
  exact List.eq_of_perm_of_sorted
    ((List.perm_insertionSort keyLe l1).trans
      (hperm.trans (List.perm_insertionSort keyLe l2).symm))
    (sorted_keyLt_insertionSort l1 hk) (sorted_keyLt_insertionSort l2 hk2)

/-- C6: the state-root commitment is a pure, order-independent function of
the account mapping's contents: both root functions sort by address before
folding, so two states holding the same unique-key entries in any order
commit identically. -/
theorem state_root_order_independent (s1 s2 : RollupState)
    (hperm : s1.accounts.Perm s2.accounts)
    (hkeys : s1.accounts.Pairwise fun p q => p.1 ≠ q.1) :
    calculate_state_root_for s1 = calculate_state_root_for s2 ∧
    ∀ ups1 ups2 : List StateUpdate,
      calculate_state_root { state := s1, state_updates := ups1 } =
        calculate_state_root { state := s2, state_updates := ups2 } := by
  have h : List.insertionSort keyLe s1.accounts =
      List.insertionSort keyLe s2.accounts :=
    insertionSort_eq_of_perm _ _ hperm hkeys
  constructor
  · simp only [calculate_state_root_for, h]
  · intro ups1 ups2
    simp only [calculate_state_root]
    rw [show ({ state := s1, state_updates := ups1 } :
        OptimisticRollup).state.accounts = s1.accounts from rfl]
    rw [show ({ state := s2, state_updates := ups2 } :
        OptimisticRollup).state.accounts = s2.accounts from rfl]
    rw [h]

/-- Two-account states differing only in insertion order. -/
def wS1 : RollupState :=
  { accounts := [(0, { nonce := 1, balance := bal 7 }),
                 (3, { nonce := 2, balance := bal 9 })] }

def wS2 : RollupState :=
  { accounts := [(3, { nonce := 2, balance := bal 9 }),
                 (0, { nonce := 1, balance := bal 7 })] }

/-- Witness for C6 on the two concrete permuted states. -/
theorem state_root_order_independent_witness :
    calculate_state_root_for wS1 = calculate_state_root_for wS2 ∧
    calculate_state_root { state := wS1, state_updates := [] } =
      calculate_state_root { state := wS2, state_updates := [] } :=
  ⟨(state_root_order_independent wS1 wS2 (by decide) (by decide)).1,
   (state_root_order_independent wS1 wS2 (by decide) (by decide)).2 [] []⟩

/-! ## Claims C1 and C7: generate/verify characterisations -/

theorem generate_fraud_proof_eq (self : OptimisticRollup) (ui ti : Nat)
    (u : StateUpdate) (ftx : Transaction)
    (hu : self.state_updates[ui]? = some u)
    (ht : u.transactions[ti]? = some ftx) :
    generate_fraud_proof self ui ti =
      some { update_index := ui, fraudulent_tx_index := ti,
             pre_fraud_root := calculate_state_root_for (replayUpTo self u ui ti),
             post_fraud_root := calculate_state_root_for
               (apply_transaction_to_state (replayUpTo self u ui ti) ftx),
             fraudulent_tx := ftx } := by
  simp [generate_fraud_proof, hu, ht]

theorem verify_fraud_proof_eq (self : OptimisticRollup) (p : FraudProof)
    (u : StateUpdate) (hu : self.state_updates[p.update_index]? = some u)
    (ht : p.fraudulent_tx_index ≤ u.transactions.length) :
    verify_fraud_proof self p =
      (if calculate_state_root_for
            (replayUpTo self u p.update_index p.fraudulent_tx_index) =
          p.pre_fraud_root
       then some (decide (calculate_state_root_for
          (apply_transaction_to_state
            (replayUpTo self u p.update_index p.fraudulent_tx_index)
            p.fraudulent_tx) = p.post_fraud_root))
       else some false) := by
  simp [verify_fraud_proof, hu, ht]

/-- C1: for every in-bounds (update_index, tx_index) pair — expressed by the
successful lookups — verifying the proof generated for that pair returns
true: verifier and generator run the identical replay, so both commitment
comparisons succeed. -/
theorem verify_generate_roundtrip (self : OptimisticRollup) (ui ti : Nat)
    (u : StateUpdate) (ftx : Transaction)
    (hu : self.state_updates[ui]? = some u)
    (ht : u.transactions[ti]? = some ftx) :
    Option.bind (generate_fraud_proof self ui ti) (verify_fraud_proof self) =
      some true := by
  have hle : ti ≤ u.transactions.length :=
    Nat.le_of_lt (List.getElem?_eq_some.mp ht).1
  rw [generate_fraud_proof_eq self ui ti u ftx hu ht, Option.some_bind,
    verify_fraud_proof_eq self _ u hu hle, if_pos rfl]
  simp

/-- Witness for C1 on the demo rollup's fraudulent transaction (1, 0). -/
theorem verify_generate_roundtrip_witness :
    Option.bind (generate_fraud_proof demoRollup 1 0) (verify_fraud_proof demoRollup) =
      some true :=
  verify_generate_roundtrip demoRollup 1 0 (demoRollup.state_updates.getD 1 emptyU)
    ((demoRollup.state_updates.getD 1 emptyU).transactions.getD 0 demoTx1)
    (by decide) (by decide)

/-- C7 (counterexample): mutating the disputed transaction's value field
need not be detected.  On `cexRollup`, the proof for (0, 1) disputes a
self-transfer of 200 wei landing on a byte already saturated at 255:
replacing the value by 201 wei produces the identical replayed post-state,
so `verify_fraud_proof` still returns true. -/
theorem value_tamper_can_pass_verification :
    generate_fraud_proof cexRollup 0 1 = some cexProof ∧
    cexProof.fraudulent_tx.value ≠ tamperedValue ∧
    verify_fraud_proof cexRollup
      { cexProof with fraudulent_tx :=
          { cexProof.fraudulent_tx with value := tamperedValue } } = some true :=
  ⟨by decide, by decide, by decide⟩

/-- C7 (amended): for every generated proof, mutating the pre-commitment or
the post-commitment to any different value makes `verify_fraud_proof` return
false; mutating the disputed transaction's value is detected only when the
mutated transaction produces a different replayed post-state, which the
byte-saturating arithmetic does not guarantee. -/
theorem commitment_tamper_always_detected (self : OptimisticRollup)
    (ui ti : Nat) (p : FraudProof)
    (h : generate_fraud_proof self ui ti = some p) :
    (∀ x, x ≠ p.pre_fraud_root →
      verify_fraud_proof self { p with pre_fraud_root := x } = some false) ∧
    (∀ y, y ≠ p.post_fraud_root →
      verify_fraud_proof self { p with post_fraud_root := y } = some false) := by
  cases hu : self.state_updates[ui]? with
  | none => simp [generate_fraud_proof, hu] at h
  | some u =>
    cases ht : u.transactions[ti]? with
    | none => simp [generate_fraud_proof, hu, ht] at h
    | some ftx =>
      rw [generate_fraud_proof_eq self ui ti u ftx hu ht] at h
      cases h
      have hle : ti ≤ u.transactions.length :=
        Nat.le_of_lt (List.getElem?_eq_some.mp ht).1
      constructor
      · intro x hx
        rw [verify_fraud_proof_eq self _ u hu hle,
          if_neg (fun hc => hx hc.symm)]
      · intro y hy
        rw [verify_fraud_proof_eq self _ u hu hle, if_pos rfl,
          decide_eq_false (fun hc => hy hc.symm)]

/-- Witness for C7's amended theorem: zeroing either commitment of the
concrete generated proof is rejected. -/
theorem commitment_tamper_always_detected_witness :
    ([] : List Nat) ≠ cexProof.pre_fraud_root ∧
    verify_fraud_proof cexRollup { cexProof with pre_fraud_root := [] } = some false ∧
    ([] : List Nat) ≠ cexProof.post_fraud_root ∧
    verify_fraud_proof cexRollup { cexProof with post_fraud_root := [] } = some false :=
  ⟨by decide,
   (commitment_tamper_always_detected cexRollup 0 1 cexProof (by decide)).1 []
     (by decide),
   by decide,
   (commitment_tamper_always_detected cexRollup 0 1 cexProof (by decide)).2 []
     (by decide)⟩
